import Mathlib

/-!
Verification of the video transformation pipeline of `client-resize-video`.

The development shallowly embeds the pure/algorithmic parts of the repository:

* the geometry resolver `calculateDimensions` (fit policies `cover`,
  `contain`, `stretch`), embedded over exact rational arithmetic `ℚ`
  (JavaScript numbers are doubles; every claim checked here concerns exact
  ratio and ordering facts that hold identically over `ℚ`, and "rounding
  tolerance" becomes exact equality);
* the quality-ladder filter `filterQualityLevels` and the multi-quality
  orchestrator `resizeVideoToMultiQualityHLS` from `hls.ts`, with the
  external encoder engine abstracted as a function parameter, and JavaScript
  truthiness of optional numeric fields modelled explicitly on `Option ℕ`;
* the master-playlist assembly, the per-job progress bookkeeping, the
  parallel result collection (`Promise.all` slot semantics), and the
  per-job engine-namespace file bookkeeping of `processQuality`.

Definitions come first, then the theorems.
-/

namespace ResizeVideo

/-! ## Definitions: geometry resolver (src/unnamed/part_001) -/

/-- Fit policy: `ResizeMode` of the source (`"cover" | "contain" | "stretch"`). -/
inductive ResizeMode
  | cover
  | contain
  | stretch
deriving DecidableEq

/-- Result record of `calculateDimensions` in the source. -/
structure Geometry where
  canvasWidth : ℚ
  canvasHeight : ℚ
  drawX : ℚ
  drawY : ℚ
  drawWidth : ℚ
  drawHeight : ℚ
deriving DecidableEq

/-- Embedding of `calculateDimensions` (src/unnamed/part_001, lines 46-123).
The source computes `sourceRatio = sourceWidth / sourceHeight` and
`targetRatio = targetWidth / targetHeight`, returns the target rectangle for
`stretch`, scales to cover (cropping, centered offset) for `cover`, and
shrinks the canvas itself for `contain`. The source performs no input
validation and has no failure path. -/
def calculateDimensions (sourceWidth sourceHeight targetWidth targetHeight : ℚ)
    (mode : ResizeMode) : Geometry :=
  let sourceRatio := sourceWidth / sourceHeight
  let targetRatio := targetWidth / targetHeight
  match mode with
  | .stretch =>
      { canvasWidth := targetWidth, canvasHeight := targetHeight
        drawX := 0, drawY := 0
        drawWidth := targetWidth, drawHeight := targetHeight }
  | .cover =>
      if sourceRatio > targetRatio then
        -- source is wider: fit by height, crop horizontally
        let drawHeight := targetHeight
        let drawWidth := targetHeight * sourceRatio
        { canvasWidth := targetWidth, canvasHeight := targetHeight
          drawX := (targetWidth - drawWidth) / 2, drawY := 0
          drawWidth := drawWidth, drawHeight := drawHeight }
      else
        -- source is taller: fit by width, crop vertically
        let drawWidth := targetWidth
        let drawHeight := targetWidth / sourceRatio
        { canvasWidth := targetWidth, canvasHeight := targetHeight
          drawX := 0, drawY := (targetHeight - drawHeight) / 2
          drawWidth := drawWidth, drawHeight := drawHeight }
  | .contain =>
      if sourceRatio > targetRatio then
        -- source is wider: fit by width
        let canvasWidth := targetWidth
        let canvasHeight := targetWidth / sourceRatio
        { canvasWidth := canvasWidth, canvasHeight := canvasHeight
          drawX := 0, drawY := 0
          drawWidth := canvasWidth, drawHeight := canvasHeight }
      else
        -- source is taller: fit by height
        let canvasHeight := targetHeight
        let canvasWidth := targetHeight * sourceRatio
        { canvasWidth := canvasWidth, canvasHeight := canvasHeight
          drawX := 0, drawY := 0
          drawWidth := canvasWidth, drawHeight := canvasHeight }

/-- Error type the spec prescribes for the geometry resolver. -/
inductive SpecError
  | invalidDimension
deriving DecidableEq

/-- Modelled from the spec's words only, for comparison with the code: the
spec's contract says `resolve` rejects non-positive dimensions with
`InvalidDimensionError` and otherwise behaves like the code's resolver. -/
def resolveSpec (sourceWidth sourceHeight targetWidth targetHeight : ℚ)
    (mode : ResizeMode) : Except SpecError Geometry :=
  if sourceWidth ≤ 0 ∨ sourceHeight ≤ 0 ∨ targetWidth ≤ 0 ∨ targetHeight ≤ 0 then
    .error .invalidDimension
  else
    .ok (calculateDimensions sourceWidth sourceHeight targetWidth targetHeight mode)

/-! ## Definitions: HLS quality ladder (src/src/hls.ts) -/

/-- `QualityLevel` of `hls.ts`: optional numeric fields are modelled as
`Option ℕ`; a field that JavaScript sees as falsy is either `none`
(`undefined`) or `some 0`. -/
structure QualityLevel where
  name : String
  width : Option ℕ
  height : Option ℕ
  videoBitrate : ℕ
  audioBitrate : Option ℕ
deriving DecidableEq

/-- JavaScript truthiness of an optional numeric field: `undefined` and `0`
are falsy. -/
def truthy (o : Option ℕ) : Bool :=
  !(o.getD 0 == 0)

/-- JavaScript `o || d` on an optional numeric field. -/
def orDefault (o : Option ℕ) (d : ℕ) : ℕ :=
  if truthy o then o.getD 0 else d

/-- Predicate of the filter callback inside `filterQualityLevels`
(hls.ts, lines 317-329): keep a level with no (truthy) dimensions; otherwise
substitute the source dimension for a missing axis and keep the level only if
both dimensions are at most the source's. -/
def keepLevel (sourceWidth sourceHeight : ℕ) (level : QualityLevel) : Bool :=
  if !(truthy level.width) && !(truthy level.height) then
    true
  else
    let targetWidth := orDefault level.width sourceWidth
    let targetHeight := orDefault level.height sourceHeight
    decide (targetWidth ≤ sourceWidth) && decide (targetHeight ≤ sourceHeight)

/-- Embedding of `filterQualityLevels` (hls.ts, lines 312-332). -/
def filterQualityLevels (qualityLevels : List QualityLevel)
    (sourceWidth sourceHeight : ℕ) : List QualityLevel :=
  qualityLevels.filter (keepLevel sourceWidth sourceHeight)

/-- The drop criterion of claim C4, stated in its own words: some explicitly
given target dimension exceeds the source's corresponding dimension. -/
def exceedsSource (level : QualityLevel) (sourceWidth sourceHeight : ℕ) : Prop :=
  (∃ w, level.width = some w ∧ sourceWidth < w) ∨
  (∃ h, level.height = some h ∧ sourceHeight < h)

instance (level : QualityLevel) (sourceWidth sourceHeight : ℕ) :
    Decidable (exceedsSource level sourceWidth sourceHeight) := by
  unfold exceedsSource
  cases level.width <;> cases level.height <;>
    exact inferInstanceAs (Decidable (_ ∨ _))

/-- The 360p level of `HLS_QUALITY_PRESETS.FULL` (hls.ts lines 765-770). -/
def preset360p : QualityLevel :=
  { name := "360p", width := some 640, height := some 360,
    videoBitrate := 800000, audioBitrate := some 96000 }

/-- The 720p level of `HLS_QUALITY_PRESETS.FULL` (hls.ts lines 779-784). -/
def preset720p : QualityLevel :=
  { name := "720p", width := some 1280, height := some 720,
    videoBitrate := 2800000, audioBitrate := some 128000 }

/-- The 1080p level of `HLS_QUALITY_PRESETS.FULL` (hls.ts lines 785-792). -/
def preset1080p : QualityLevel :=
  { name := "1080p", width := some 1920, height := some 1080,
    videoBitrate := 5000000, audioBitrate := some 192000 }

/-- A level whose audio bitrate is given but equal to `0`. -/
def zeroAudioLevel : QualityLevel :=
  { name := "a", width := none, height := none,
    videoBitrate := 800000, audioBitrate := some 0 }

/-- A level with no audio bitrate. -/
def noAudioLevel : QualityLevel :=
  { name := "na", width := none, height := none,
    videoBitrate := 800000, audioBitrate := none }

/-- A level that specifies both dimensions, the width being `0`. -/
def zeroWidthLevel : QualityLevel :=
  { name := "x", width := some 0, height := some 100,
    videoBitrate := 1000, audioBitrate := none }

/-- A level that omits its width. -/
def noResLevel : QualityLevel :=
  { name := "nores", width := none, height := some 100,
    videoBitrate := 1000, audioBitrate := none }

/-! ## Definitions: multi-quality orchestration (`resizeVideoToMultiQualityHLS`)

The encoder engine is an external collaborator; it is abstracted as a
function `engine : ℕ → QualityLevel → String` giving the playlist text a
successfully completed encode job produces for a given job index and level.
The observable side effects of one `processQuality` call that matter here
(engine instantiation, loading, command execution) are recorded as an event
trace. -/

/-- Failures of the orchestrator before any encoding work starts:
the explicit `qualityLevels.length === 0` throw (hls.ts line 352) and the
empty-after-filtering throw (hls.ts lines 387-392, `EmptyLadderError` in the
spec's taxonomy). -/
inductive OrchestrationError
  | noQualityLevels
  | emptyLadder (sourceWidth sourceHeight : ℕ)
deriving DecidableEq

/-- Engine-related steps of one `processQuality` call, in program order:
`new FFmpeg()` (hls.ts line 422), `ffmpeg.load(...)` (line 447),
`ffmpeg.exec(...)` (line 515). -/
inductive EncodeEvent
  | engineCreated (index : ℕ)
  | engineLoaded (index : ℕ)
  | execRun (index : ℕ)
deriving DecidableEq

/-- The per-quality entry of `MultiQualityHLSOutput.qualities`. -/
structure Rendition where
  level : QualityLevel
  playlistName : String
  playlistContent : String
deriving DecidableEq

/-- Events emitted by `processQuality` for job `index`. -/
def processQualityEvents (index : ℕ) : List EncodeEvent :=
  [.engineCreated index, .engineLoaded index, .execRun index]

/-- Completed-job value of `processQuality` (hls.ts lines 567-572): the
playlist file is named `<name>_playlist.m3u8` (lines 545-551). -/
def processQualityResult (engine : ℕ → QualityLevel → String)
    (index : ℕ) (level : QualityLevel) : Rendition :=
  { level := level
    playlistName := level.name ++ "_playlist.m3u8"
    playlistContent := engine index level }

/-- Event trace of running the whole (post-filtering) ladder. -/
def ladderEvents (filtered : List QualityLevel) : List EncodeEvent :=
  (List.range filtered.length).flatMap processQualityEvents

/-- Renditions produced by the whole (post-filtering) ladder, one per level,
indexed in ladder order. -/
def ladderResults (engine : ℕ → QualityLevel → String)
    (filtered : List QualityLevel) : List Rendition :=
  filtered.enum.map (fun p => processQualityResult engine p.1 p.2)

/-- Embedding of the orchestration skeleton of `resizeVideoToMultiQualityHLS`
(hls.ts lines 338-671): reject an empty ladder, filter (when auto-filtering
is enabled, the default), reject an empty filtered ladder, then run every
remaining level. Returns the emitted engine events together with either the
error or the rendition list. -/
def resizeVideoToMultiQualityHLS (engine : ℕ → QualityLevel → String)
    (sourceWidth sourceHeight : ℕ) (qualityLevels : List QualityLevel)
    (autoFilter : Bool) :
    List EncodeEvent × Except OrchestrationError (List Rendition) :=
  if qualityLevels.length = 0 then
    ([], .error .noQualityLevels)
  else
    let filtered :=
      if autoFilter then filterQualityLevels qualityLevels sourceWidth sourceHeight
      else qualityLevels
    if autoFilter && filtered.isEmpty then
      ([], .error (.emptyLadder sourceWidth sourceHeight))
    else
      (ladderEvents filtered, .ok (ladderResults engine filtered))

/-! ## Definitions: parallel result collection (`Promise.all` slot semantics)

In parallel mode the source maps each filtered level to an asynchronous job
(hls.ts lines 617-633) and collects them with `Promise.all` (line 635).
`Promise.all` stores each job's value into the result slot of the job's
*input index* whenever the job happens to settle; the slots are read out in
index order at the end. Completion order is modelled as an arbitrary
permutation of the job indices. -/

/-- One settlement: job `i` completes and its value is stored into slot `i`. -/
def settleStep (results : List Rendition) (slots : List (Option Rendition))
    (i : ℕ) : List (Option Rendition) :=
  match results[i]? with
  | some r => slots.set i (some r)
  | none => slots

/-- `Promise.all` over the jobs of `results`, settling in `completionOrder`:
start from all-unfilled slots and store each completed job's value at its own
index. -/
def settleAll (results : List Rendition) (completionOrder : List ℕ) :
    List (Option Rendition) :=
  completionOrder.foldl (settleStep results) (List.replicate results.length none)

/-! ## Definitions: master playlist assembly (hls.ts lines 673-693) -/

/-- Declared bandwidth of a stream-info entry (hls.ts line 678):
`level.videoBitrate + (level.audioBitrate || 128000)` — JavaScript `||`
substitutes the default when `audioBitrate` is `undefined` *or* `0`. -/
def bandwidthOf (level : QualityLevel) : ℕ :=
  level.videoBitrate + orDefault level.audioBitrate 128000

/-- One `#EXT-X-STREAM-INF` line (hls.ts lines 681-687): bandwidth, then a
`RESOLUTION` attribute only when `level.width && level.height` is truthy,
then the quoted name. -/
def streamInfoLine (level : QualityLevel) : String :=
  let base := "#EXT-X-STREAM-INF:BANDWIDTH=" ++ Nat.repr (bandwidthOf level)
  let withRes :=
    if truthy level.width && truthy level.height then
      base ++ ",RESOLUTION=" ++ Nat.repr (level.width.getD 0) ++ "x"
        ++ Nat.repr (level.height.getD 0)
    else
      base
  withRes ++ ",NAME=\"" ++ level.name ++ "\""

/-- Master-playlist text contributed by one rendition (hls.ts lines 688-692):
the stream-info line, then the rendition's own playlist filename, then a
blank line. -/
def masterEntry (r : Rendition) : String :=
  streamInfoLine r.level ++ "\n" ++ r.playlistName ++ "\n\n"

/-- Concatenation of the per-rendition entries in list order. -/
def masterEntries : List Rendition → String
  | [] => ""
  | r :: rest => masterEntry r ++ masterEntries rest

/-- Embedding of the master-playlist loop (hls.ts lines 674-693): start from
the header and append each rendition's entry in the order of the `qualities`
array (which is ladder order, post-filtering). -/
def masterPlaylistContent (qualities : List Rendition) : String :=
  qualities.foldl (fun acc r => acc ++ masterEntry r) "#EXTM3U\n#EXT-X-VERSION:3\n\n"

/-! ## Definitions: per-job progress bookkeeping (hls.ts lines 424-440, 581-603) -/

/-- The per-job progress weight `progressRange = 100 / total`
(hls.ts line 418). -/
def progressRange (total : ℕ) : ℚ :=
  100 / (total : ℚ)

/-- The contribution a job stores into the progress aggregate on an engine
progress signal `progress` (hls.ts lines 427-431):
`qualityContribution = progress * progressRange`, stored unconditionally —
the source applies no clamping. -/
def qualityContribution (progress : ℚ) (total : ℕ) : ℚ :=
  progress * progressRange total

/-- The overall progress reported to the caller (hls.ts lines 585-593):
`Math.min(Math.round(totalProgress), 100)` over the sum of all stored
contributions. JavaScript `Math.round` is `⌊x + 1/2⌋`, which is Lean's
`round` on `ℚ`. -/
def overallProgress (contributions : List ℚ) : ℤ :=
  min (round (contributions.foldl (fun a b => a + b) 0)) 100

/-! ## Definitions: engine-namespace bookkeeping of one encode job
(hls.ts lines 460-562)

The engine's working namespace is modelled as the list of file entries it
holds. `processQuality` writes its input entry, then runs the engine (which,
on success, writes the playlist and segment entries), reads the buffers, and
deletes the entries it created — but only on the success path: the
`ffmpeg.exec` call (line 515) is not wrapped in any try/finally, so a failed
engine invocation rejects the job before any cleanup runs. The cleanup block
itself (lines 553-562) is wrapped in try/catch, so deletion errors are
logged, not rethrown. The same write/exec/read/delete shape without
try/finally occurs in `resizeVideoToHLS` (lines 129-224). -/

/-- Input entry name `input_<name>.mp4` (hls.ts line 461). -/
def inputNameOf (levelName : String) : String :=
  "input_" ++ levelName ++ ".mp4"

/-- Quality slug `name.toLowerCase().replace(/[^a-z0-9]/g, "_")`
(hls.ts line 464), for ASCII names. -/
def qualitySlug (name : String) : String :=
  String.map (fun c => if c.isAlphanum then c else '_') name.toLower

/-- Output playlist entry name `playlist_<slug>.m3u8` (hls.ts line 465). -/
def outputNameOf (slug : String) : String :=
  "playlist_" ++ slug ++ ".m3u8"

/-- Writing a file entry into the engine namespace. -/
def writeEntry (fs : List String) (entry : String) : List String :=
  fs ++ [entry]

/-- Deleting a file entry from the engine namespace. -/
def deleteEntry (fs : List String) (entry : String) : List String :=
  fs.erase entry

/-- File-entry effect of one `processQuality` call on the engine namespace
`fs`: returns the final namespace and whether the job succeeded.
`engineFails` abstracts a rejecting `ffmpeg.exec`; `segmentNames` are the
segment entries the engine produces (parsed back from the playlist text in
the source). -/
def processQualityFS (levelName : String) (engineFails : Bool)
    (segmentNames : List String) (fs : List String) : List String × Bool :=
  let inputName := inputNameOf levelName
  let outputName := outputNameOf (qualitySlug levelName)
  let fs1 := writeEntry fs inputName
  if engineFails then
    (fs1, false)
  else
    let fs2 := segmentNames.foldl writeEntry (writeEntry fs1 outputName)
    let fs3 := deleteEntry fs2 inputName
    let fs4 := deleteEntry fs3 outputName
    let fs5 := segmentNames.foldl deleteEntry fs4
    (fs5, true)

/-! ## Helper lemmas -/

theorem string_append_assoc (a b c : String) : a ++ b ++ c = a ++ (b ++ c) := by
  rcases a with ⟨a⟩
  rcases b with ⟨b⟩
  rcases c with ⟨c⟩
  show String.mk (a ++ b ++ c) = String.mk (a ++ (b ++ c))
  rw [List.append_assoc]

theorem string_append_empty (a : String) : a ++ "" = a := by
  rcases a with ⟨a⟩
  show String.mk (a ++ []) = String.mk a
  rw [List.append_nil]

/-- The filter predicate keeps a level exactly when no explicit dimension
exceeds the source. -/
theorem keepLevel_iff_not_exceeds (level : QualityLevel) (sW sH : ℕ) :
    keepLevel sW sH level = true ↔ ¬ exceedsSource level sW sH := by
  rcases level with ⟨name, w, h, vb, ab⟩
  simp only [keepLevel, exceedsSource, truthy, orDefault]
  cases w with
  | none =>
      cases h with
      | none => simp
      | some hv =>
          by_cases hz : hv = 0
          · subst hz; simp
          · simp [hz]
  | some wv =>
      cases h with
      | none =>
          by_cases hz : wv = 0
          · subst hz; simp
          · simp [hz]
      | some hv =>
          by_cases hwz : wv = 0 <;> by_cases hhz : hv = 0
          · subst hwz; subst hhz; simp
          · subst hwz; simp [hhz]
          · subst hhz; simp [hwz]
          · simp [hwz, hhz]

theorem settleStep_length (results : List Rendition)
    (slots : List (Option Rendition)) (i : ℕ) :
    (settleStep results slots i).length = slots.length := by
  unfold settleStep
  split <;> simp

theorem settleFold_get_not_mem (results : List Rendition) :
    ∀ (order : List ℕ) (slots : List (Option Rendition)) (j : ℕ),
      j ∉ order →
      (order.foldl (settleStep results) slots)[j]? = slots[j]? := by
  intro order
  induction order with
  | nil => intro slots j _; rfl
  | cons i rest ih =>
      intro slots j hj
      simp only [List.foldl_cons]
      rw [ih _ _ (fun h => hj (List.mem_cons_of_mem _ h))]
      have hij : i ≠ j := fun h => hj (h ▸ List.mem_cons_self _ _)
      unfold settleStep
      split
      · exact List.getElem?_set_ne hij
      · rfl

theorem settleFold_get_mem (results : List Rendition) :
    ∀ (order : List ℕ) (slots : List (Option Rendition)) (j : ℕ) (r : Rendition),
      results[j]? = some r → j ∈ order → slots.length = results.length →
      (order.foldl (settleStep results) slots)[j]? = some (some r) := by
  intro order
  induction order with
  | nil => intro slots j r _ hmem _; exact absurd hmem (List.not_mem_nil _)
  | cons i rest ih =>
      intro slots j r hr hmem hlen
      simp only [List.foldl_cons]
      by_cases hj : j ∈ rest
      · exact ih _ _ _ hr hj (by rw [settleStep_length]; exact hlen)
      · have hij : i = j := by
          rcases List.mem_cons.mp hmem with h | h
          · exact h.symm
          · exact absurd h hj
        subst hij
        rw [settleFold_get_not_mem _ _ _ _ hj]
        have hlt : i < slots.length := by
          rw [hlen]
          exact (List.getElem?_eq_some.mp hr).1
        unfold settleStep
        rw [hr]
        exact List.getElem?_set_eq_of_lt _ hlt

theorem settleAll_eq_map_some (results : List Rendition) (order : List ℕ)
    (hperm : order.Perm (List.range results.length)) :
    settleAll results order = results.map some := by
  apply List.ext_getElem?
  intro j
  by_cases hj : j < results.length
  · have hr : results[j]? = some results[j] := List.getElem?_eq_getElem hj
    have hmem : j ∈ order := hperm.mem_iff.mpr (List.mem_range.mpr hj)
    rw [settleAll,
      settleFold_get_mem results order _ j results[j] hr hmem
        (List.length_replicate _ _),
      List.getElem?_map, hr]
    rfl
  · have hj' : results.length ≤ j := le_of_not_lt hj
    have hnmem : j ∉ order :=
      fun h => hj (List.mem_range.mp (hperm.mem_iff.mp h))
    rw [settleAll, settleFold_get_not_mem results order _ _ hnmem,
      List.getElem?_eq_none (by simpa using hj'),
      List.getElem?_eq_none (by simpa using hj')]

theorem masterFold_shift (rs : List Rendition) :
    ∀ acc : String,
      rs.foldl (fun acc r => acc ++ masterEntry r) acc = acc ++ masterEntries rs := by
  induction rs with
  | nil => intro acc; exact (string_append_empty acc).symm
  | cons r rest ih =>
      intro acc
      simp only [List.foldl_cons, masterEntries]
      rw [ih, string_append_assoc]

theorem writeFold (segs : List String) :
    ∀ base : List String, segs.foldl writeEntry base = base ++ segs := by
  induction segs with
  | nil => intro base; simp
  | cons s rest ih =>
      intro base
      simp only [List.foldl_cons, writeEntry]
      rw [ih, List.append_assoc]
      rfl

theorem deleteFold (segs : List String) :
    ∀ fs : List String, (∀ s ∈ segs, s ∉ fs) →
      segs.foldl deleteEntry (fs ++ segs) = fs := by
  induction segs with
  | nil => intro fs _; simp
  | cons s rest ih =>
      intro fs hdisj
      simp only [List.foldl_cons]
      have hs : s ∉ fs := hdisj s (List.mem_cons_self _ _)
      have hstep : deleteEntry (fs ++ s :: rest) s = fs ++ rest := by
        rw [deleteEntry, List.erase_append_right _ hs, List.erase_cons_head]
      rw [hstep]
      exact ih fs (fun t ht => hdisj t (List.mem_cons_of_mem _ ht))

/-! ## Claim C1 -/

/-- Claim C1: for positive source and target dimensions, the `contain` policy
returns a canvas whose aspect ratio equals the source aspect ratio exactly
(hence within any rounding tolerance), whose dimensions fit within the
target, and whose draw rectangle equals the canvas rectangle at offset
`(0, 0)`. -/
theorem contain_fits_and_keeps_ratio (sW sH tW tH : ℚ)
    (hsW : 0 < sW) (hsH : 0 < sH) (htW : 0 < tW) (htH : 0 < tH) :
    (calculateDimensions sW sH tW tH .contain).canvasWidth /
      (calculateDimensions sW sH tW tH .contain).canvasHeight = sW / sH ∧
    (calculateDimensions sW sH tW tH .contain).canvasWidth ≤ tW ∧
    (calculateDimensions sW sH tW tH .contain).canvasHeight ≤ tH ∧
    (calculateDimensions sW sH tW tH .contain).drawX = 0 ∧
    (calculateDimensions sW sH tW tH .contain).drawY = 0 ∧
    (calculateDimensions sW sH tW tH .contain).drawWidth =
      (calculateDimensions sW sH tW tH .contain).canvasWidth ∧
    (calculateDimensions sW sH tW tH .contain).drawHeight =
      (calculateDimensions sW sH tW tH .contain).canvasHeight := by
  have hsr : 0 < sW / sH := div_pos hsW hsH
  have hsW' : sW ≠ 0 := ne_of_gt hsW
  have hsH' : sH ≠ 0 := ne_of_gt hsH
  have htW' : tW ≠ 0 := ne_of_gt htW
  have htH' : tH ≠ 0 := ne_of_gt htH
  unfold calculateDimensions
  simp only
  split
  · -- branch: sourceRatio > targetRatio
    rename_i hgt
    have hcross : tW * sH < sW * tH := (div_lt_div_iff₀ htH hsH).mp hgt
    dsimp only
    refine ⟨?_, le_refl _, ?_, rfl, rfl, rfl, rfl⟩
    · field_simp
      ring
    · -- tW / (sW / sH) ≤ tH
      rw [div_le_iff₀ hsr, ← mul_div_assoc, le_div_iff₀ hsH]
      linarith
  · -- branch: sourceRatio ≤ targetRatio
    rename_i hle
    have hle' : sW / sH ≤ tW / tH := not_lt.mp (by simpa using hle)
    have hcross : sW * tH ≤ tW * sH := (div_le_div_iff₀ hsH htH).mp hle'
    dsimp only
    refine ⟨?_, ?_, le_refl _, rfl, rfl, rfl, rfl⟩
    · field_simp
      ring
    · -- tH * (sW / sH) ≤ tW
      rw [← mul_div_assoc, div_le_iff₀ hsH]
      linarith

/-- Witness for C1: a concrete 1920x1080 source mapped into a 1280x1280
target with policy `contain`. -/
theorem contain_fits_and_keeps_ratio_witness :
    (calculateDimensions 1920 1080 1280 1280 .contain).canvasWidth /
      (calculateDimensions 1920 1080 1280 1280 .contain).canvasHeight = 1920 / 1080 ∧
    (calculateDimensions 1920 1080 1280 1280 .contain).canvasWidth ≤ 1280 ∧
    (calculateDimensions 1920 1080 1280 1280 .contain).canvasHeight ≤ 1280 ∧
    (calculateDimensions 1920 1080 1280 1280 .contain).drawX = 0 ∧
    (calculateDimensions 1920 1080 1280 1280 .contain).drawY = 0 ∧
    (calculateDimensions 1920 1080 1280 1280 .contain).drawWidth =
      (calculateDimensions 1920 1080 1280 1280 .contain).canvasWidth ∧
    (calculateDimensions 1920 1080 1280 1280 .contain).drawHeight =
      (calculateDimensions 1920 1080 1280 1280 .contain).canvasHeight :=
  contain_fits_and_keeps_ratio 1920 1080 1280 1280
    (by norm_num) (by norm_num) (by norm_num) (by norm_num)

/-! ## Claim C2 -/

/-- Claim C2 counterexample: with source 1920x1080 and target 1280x720 (all
dimensions positive), the source and target aspect ratios coincide, and the
`cover` policy returns a draw rectangle equal to the canvas rectangle on both
axes. The claim's requirement that "the draw rectangle is larger than the
canvas on exactly one axis" is therefore false: here it is larger on no axis. -/
theorem cover_exactly_one_axis_counterexample :
    (calculateDimensions 1920 1080 1280 720 .cover).drawWidth =
      (calculateDimensions 1920 1080 1280 720 .cover).canvasWidth ∧
    (calculateDimensions 1920 1080 1280 720 .cover).drawHeight =
      (calculateDimensions 1920 1080 1280 720 .cover).canvasHeight ∧
    ¬((calculateDimensions 1920 1080 1280 720 .cover).canvasWidth <
        (calculateDimensions 1920 1080 1280 720 .cover).drawWidth) ∧
    ¬((calculateDimensions 1920 1080 1280 720 .cover).canvasHeight <
        (calculateDimensions 1920 1080 1280 720 .cover).drawHeight) := by
  unfold calculateDimensions
  norm_num

/-- Claim C2, amended: for positive dimensions, `cover` returns canvas =
target; the draw rectangle covers the target (`drawWidth ≥ targetW`,
`drawHeight ≥ targetH`) with equality on at least one axis; the draw aspect
ratio equals the source aspect ratio; both offsets are the centering offsets
`(target - scaled) / 2` (the offset of the non-overflowing axis being 0); and
the draw rectangle exceeds the canvas on at most one axis — exactly one when
the source and target aspect ratios differ, and none when they coincide. -/
theorem cover_covers_and_centers (sW sH tW tH : ℚ)
    (hsW : 0 < sW) (hsH : 0 < sH) (htW : 0 < tW) (htH : 0 < tH) :
    (calculateDimensions sW sH tW tH .cover).canvasWidth = tW ∧
    (calculateDimensions sW sH tW tH .cover).canvasHeight = tH ∧
    tW ≤ (calculateDimensions sW sH tW tH .cover).drawWidth ∧
    tH ≤ (calculateDimensions sW sH tW tH .cover).drawHeight ∧
    ((calculateDimensions sW sH tW tH .cover).drawWidth = tW ∨
      (calculateDimensions sW sH tW tH .cover).drawHeight = tH) ∧
    (calculateDimensions sW sH tW tH .cover).drawWidth /
      (calculateDimensions sW sH tW tH .cover).drawHeight = sW / sH ∧
    (calculateDimensions sW sH tW tH .cover).drawX =
      (tW - (calculateDimensions sW sH tW tH .cover).drawWidth) / 2 ∧
    (calculateDimensions sW sH tW tH .cover).drawY =
      (tH - (calculateDimensions sW sH tW tH .cover).drawHeight) / 2 ∧
    ¬(tW < (calculateDimensions sW sH tW tH .cover).drawWidth ∧
        tH < (calculateDimensions sW sH tW tH .cover).drawHeight) := by
  have hsr : 0 < sW / sH := div_pos hsW hsH
  have hsW' : sW ≠ 0 := ne_of_gt hsW
  have hsH' : sH ≠ 0 := ne_of_gt hsH
  have htW' : tW ≠ 0 := ne_of_gt htW
  have htH' : tH ≠ 0 := ne_of_gt htH
  unfold calculateDimensions
  simp only
  split
  · -- branch: sourceRatio > targetRatio, fit by height, crop horizontally
    rename_i hgt
    have hcross : tW * sH < sW * tH := (div_lt_div_iff₀ htH hsH).mp hgt
    dsimp only
    refine ⟨rfl, rfl, ?_, le_refl _, Or.inr rfl, ?_, rfl, ?_, ?_⟩
    · -- tW ≤ tH * (sW / sH)
      rw [← mul_div_assoc, le_div_iff₀ hsH]
      linarith
    · field_simp
      ring
    · norm_num
    · intro hboth
      exact absurd hboth.2 (lt_irrefl tH)
  · -- branch: sourceRatio ≤ targetRatio, fit by width, crop vertically
    rename_i hle
    have hle' : sW / sH ≤ tW / tH := not_lt.mp (by simpa using hle)
    have hcross : sW * tH ≤ tW * sH := (div_le_div_iff₀ hsH htH).mp hle'
    dsimp only
    refine ⟨rfl, rfl, le_refl _, ?_, Or.inl rfl, ?_, ?_, rfl, ?_⟩
    · -- tH ≤ tW / (sW / sH)
      rw [le_div_iff₀ hsr, ← mul_div_assoc, div_le_iff₀ hsH]
      linarith
    · field_simp
      ring
    · norm_num
    · intro hboth
      exact absurd hboth.1 (lt_irrefl tW)

/-- Witness for the amended C2 at source 1920x1080, target 400x400. -/
theorem cover_covers_and_centers_witness :
    (calculateDimensions 1920 1080 400 400 .cover).canvasWidth = 400 ∧
    (calculateDimensions 1920 1080 400 400 .cover).canvasHeight = 400 ∧
    (400 : ℚ) ≤ (calculateDimensions 1920 1080 400 400 .cover).drawWidth ∧
    (400 : ℚ) ≤ (calculateDimensions 1920 1080 400 400 .cover).drawHeight ∧
    ((calculateDimensions 1920 1080 400 400 .cover).drawWidth = 400 ∨
      (calculateDimensions 1920 1080 400 400 .cover).drawHeight = 400) ∧
    (calculateDimensions 1920 1080 400 400 .cover).drawWidth /
      (calculateDimensions 1920 1080 400 400 .cover).drawHeight = 1920 / 1080 ∧
    (calculateDimensions 1920 1080 400 400 .cover).drawX =
      (400 - (calculateDimensions 1920 1080 400 400 .cover).drawWidth) / 2 ∧
    (calculateDimensions 1920 1080 400 400 .cover).drawY =
      (400 - (calculateDimensions 1920 1080 400 400 .cover).drawHeight) / 2 ∧
    ¬((400 : ℚ) < (calculateDimensions 1920 1080 400 400 .cover).drawWidth ∧
        (400 : ℚ) < (calculateDimensions 1920 1080 400 400 .cover).drawHeight) :=
  cover_covers_and_centers 1920 1080 400 400
    (by norm_num) (by norm_num) (by norm_num) (by norm_num)

/-! ## Claim C3 -/

/-- Claim C3 counterexample: at the non-positive input `sourceWidth = -1`
(all other dimensions 1), the spec's resolver rejects with
`InvalidDimensionError`, but the code's `calculateDimensions` performs no
validation at all — it returns an ordinary geometry record. No
`InvalidDimensionError` (or any failure path) exists in the code. -/
theorem resolver_rejects_nothing_counterexample :
    resolveSpec (-1) 1 1 1 .contain = .error .invalidDimension ∧
    calculateDimensions (-1) 1 1 1 .contain =
      { canvasWidth := -1, canvasHeight := 1, drawX := 0, drawY := 0,
        drawWidth := -1, drawHeight := 1 } := by
  constructor
  · unfold resolveSpec
    norm_num
  · unfold calculateDimensions
    norm_num

/-- Claim C3, amended: the geometry resolver performs no input validation and
never fails: it is a total function, returning a geometry for every input
(the counterexample shows this for a non-positive input); for all positive
inputs the returned geometry has positive canvas dimensions. -/
theorem resolver_total_on_positive (sW sH tW tH : ℚ) (mode : ResizeMode)
    (hsW : 0 < sW) (hsH : 0 < sH) (htW : 0 < tW) (htH : 0 < tH) :
    0 < (calculateDimensions sW sH tW tH mode).canvasWidth ∧
    0 < (calculateDimensions sW sH tW tH mode).canvasHeight := by
  have hsr : 0 < sW / sH := div_pos hsW hsH
  unfold calculateDimensions
  cases mode with
  | stretch => exact ⟨htW, htH⟩
  | cover =>
      simp only
      split <;> exact ⟨htW, htH⟩
  | contain =>
      simp only
      split
      · exact ⟨htW, div_pos htW hsr⟩
      · exact ⟨mul_pos htH hsr, htH⟩

/-- Witness for the amended C3 at a concrete positive input. -/
theorem resolver_total_on_positive_witness :
    0 < (calculateDimensions 640 480 320 240 .contain).canvasWidth ∧
    0 < (calculateDimensions 640 480 320 240 .contain).canvasHeight :=
  resolver_total_on_positive 640 480 320 240 .contain
    (by norm_num) (by norm_num) (by norm_num) (by norm_num)

/-! ## Claim C4 -/

/-- Claim C4: ladder filtering keeps a level iff it is in the ladder and no
explicit dimension exceeds the source; the result is a sublist of the ladder
(so the relative order of kept levels is preserved); a level with no explicit
dimensions is never dropped; and for a 1280x720 source the ladder
[360p, 720p, 1080p] filters to [360p, 720p] in order. -/
theorem ladder_filtering_correct :
    (∀ (levels : List QualityLevel) (sW sH : ℕ) (l : QualityLevel),
      l ∈ filterQualityLevels levels sW sH ↔ l ∈ levels ∧ ¬ exceedsSource l sW sH) ∧
    (∀ (levels : List QualityLevel) (sW sH : ℕ),
      (filterQualityLevels levels sW sH).Sublist levels) ∧
    (∀ (levels : List QualityLevel) (sW sH : ℕ) (l : QualityLevel),
      l ∈ levels → l.width = none → l.height = none →
        l ∈ filterQualityLevels levels sW sH) ∧
    filterQualityLevels [preset360p, preset720p, preset1080p] 1280 720 =
      [preset360p, preset720p] := by
  refine ⟨?_, ?_, ?_, by decide⟩
  · intro levels sW sH l
    rw [filterQualityLevels, List.mem_filter, keepLevel_iff_not_exceeds]
  · intro levels sW sH
    exact List.filter_sublist _
  · intro levels sW sH l hmem hw hh
    rw [filterQualityLevels, List.mem_filter, keepLevel_iff_not_exceeds]
    refine ⟨hmem, ?_⟩
    rintro (⟨w, hw', _⟩ | ⟨h, hh', _⟩)
    · rw [hw] at hw'; exact Option.noConfusion hw'
    · rw [hh] at hh'; exact Option.noConfusion hh'

/-- Witness for C4 (the universally quantified parts applied at a concrete
ladder and source). -/
theorem ladder_filtering_correct_witness :
    (preset360p ∈ filterQualityLevels [preset360p, preset1080p] 1280 720 ↔
      preset360p ∈ [preset360p, preset1080p] ∧
        ¬ exceedsSource preset360p 1280 720) ∧
    (filterQualityLevels [preset360p, preset1080p] 1280 720).Sublist
      [preset360p, preset1080p] :=
  ⟨ladder_filtering_correct.1 [preset360p, preset1080p] 1280 720 preset360p,
   ladder_filtering_correct.2.1 [preset360p, preset1080p] 1280 720⟩

/-! ## Claim C5 -/

/-- Claim C5: with filtering enabled, if filtering removes every quality
level of a nonempty ladder, the orchestrator fails with the empty-ladder
error (`EmptyLadderError` in the spec's taxonomy) and its event trace is
empty — no encoder engine is instantiated and no encode command runs before
the failure. -/
theorem empty_ladder_fails_before_encode
    (engine : ℕ → QualityLevel → String) (sW sH : ℕ)
    (levels : List QualityLevel) (hne : levels ≠ [])
    (hempty : filterQualityLevels levels sW sH = []) :
    resizeVideoToMultiQualityHLS engine sW sH levels true =
      ([], .error (.emptyLadder sW sH)) := by
  unfold resizeVideoToMultiQualityHLS
  rw [if_neg (by simpa using hne)]
  simp [hempty]

/-- Witness for C5: the spec's own example, a 320x240 source with a ladder
containing only 1080p. -/
theorem empty_ladder_fails_before_encode_witness :
    resizeVideoToMultiQualityHLS (fun _ _ => "") 320 240 [preset1080p] true =
      ([], .error (.emptyLadder 320 240)) :=
  empty_ladder_fails_before_encode (fun _ _ => "") 320 240 [preset1080p]
    (by simp) (by decide)

/-! ## Claim C6 -/

/-- Claim C6: in parallel mode the collected quality array is ordered by
ladder index (post-filtering), regardless of completion order: for every
completion order (any permutation of the job indices), `Promise.all`'s slots
read out exactly as the ladder-ordered rendition list, and the entry at
index `i` is the rendition of the `i`-th filtered level. -/
theorem parallel_results_preserve_ladder_order
    (engine : ℕ → QualityLevel → String) (filtered : List QualityLevel)
    (order : List ℕ)
    (hperm : order.Perm (List.range (ladderResults engine filtered).length)) :
    settleAll (ladderResults engine filtered) order =
      (ladderResults engine filtered).map some ∧
    ∀ i : ℕ, (ladderResults engine filtered)[i]? =
      (filtered[i]?).map (processQualityResult engine i) := by
  refine ⟨settleAll_eq_map_some _ _ hperm, ?_⟩
  intro i
  rw [ladderResults, List.getElem?_map, List.getElem?_enum]
  cases filtered[i]? <;> rfl

/-- Witness for C6: a 3-level ladder whose jobs complete in the order
2, 0, 1 still yields the renditions in ladder order 0, 1, 2. -/
theorem parallel_results_preserve_ladder_order_witness :
    settleAll (ladderResults (fun _ _ => "")
        [preset360p, preset720p, preset1080p]) [2, 0, 1] =
      (ladderResults (fun _ _ => "")
        [preset360p, preset720p, preset1080p]).map some :=
  (parallel_results_preserve_ladder_order (fun _ _ => "")
    [preset360p, preset720p, preset1080p] [2, 0, 1] (by decide)).1

/-! ## Claim C7 -/

/-- Claim C7 counterexample: `zeroAudioLevel` has `videoBitrate = 800000` and
*gives* `audioBitrate = 0`; its declared bandwidth is `928000 = 800000 +
128000`, not `800000 + 0`: JavaScript `||` treats the given `0` as absent. -/
theorem bandwidth_zero_audio_counterexample :
    bandwidthOf zeroAudioLevel = 928000 ∧ (928000 : ℕ) ≠ 800000 + 0 := by
  constructor
  · rfl
  · decide

/-- Claim C7, amended: the stream-info bandwidth equals
`videoBitrateBps + audioBitrateBps` when the audio bitrate is given and
nonzero, and `videoBitrateBps + 128000` when it is absent **or zero**; the
claim's example `800000 + 96000 = 896000` holds (that is `preset360p`); and
the master playlist is the header followed by the per-rendition entries
concatenated in ladder order (entry concatenation is compositional in that
order). -/
theorem master_bandwidth_and_order :
    (∀ (l : QualityLevel) (a : ℕ), l.audioBitrate = some a → a ≠ 0 →
      bandwidthOf l = l.videoBitrate + a) ∧
    (∀ l : QualityLevel, l.audioBitrate = none →
      bandwidthOf l = l.videoBitrate + 128000) ∧
    (∀ l : QualityLevel, l.audioBitrate = some 0 →
      bandwidthOf l = l.videoBitrate + 128000) ∧
    bandwidthOf preset360p = 896000 ∧
    (∀ qs : List Rendition, masterPlaylistContent qs =
      "#EXTM3U\n#EXT-X-VERSION:3\n\n" ++ masterEntries qs) ∧
    (∀ qs1 qs2 : List Rendition,
      masterEntries (qs1 ++ qs2) = masterEntries qs1 ++ masterEntries qs2) := by
  refine ⟨?_, ?_, ?_, by rfl, ?_, ?_⟩
  · intro l a ha hnz
    rw [bandwidthOf, orDefault, ha]
    simp [truthy, hnz]
  · intro l ha
    rw [bandwidthOf, orDefault, ha]
    rfl
  · intro l ha
    rw [bandwidthOf, orDefault, ha]
    rfl
  · intro qs
    exact masterFold_shift qs _
  · intro qs1 qs2
    induction qs1 with
    | nil =>
        show masterEntries qs2 = "" ++ masterEntries qs2
        rcases hq : masterEntries qs2 with ⟨d⟩
        show String.mk d = String.mk ([] ++ d)
        rw [List.nil_append]
    | cons r rest ih =>
        show masterEntry r ++ masterEntries (rest ++ qs2) = _
        rw [ih, masterEntries, string_append_assoc]

/-- Witness for C7: the amended bandwidth rules applied at the claim's
concrete data points (`preset360p` with audio 96000, and a level with no
audio bitrate). -/
theorem master_bandwidth_and_order_witness :
    bandwidthOf preset360p = 800000 + 96000 ∧
    bandwidthOf noAudioLevel = 800000 + 128000 :=
  ⟨master_bandwidth_and_order.1 preset360p 96000 rfl (by decide),
   master_bandwidth_and_order.2.1 noAudioLevel rfl⟩

/-! ## Claim C8 -/

/-- Claim C8 counterexample: an out-of-range engine signal `p = 2` with 2
jobs (weight `progressRange 2 = 50`) records the contribution `100` into the
aggregate — above the job's weight. The source stores
`progress * progressRange` without any clamping. -/
theorem contribution_not_clamped_counterexample :
    qualityContribution 2 2 = 100 ∧ progressRange 2 = 50 ∧
    ¬(qualityContribution 2 2 ≤ progressRange 2) := by
  refine ⟨?_, ?_, ?_⟩ <;> norm_num [qualityContribution, progressRange]

/-- Claim C8, amended: no clamping is applied to a job's recorded
contribution; the entry lies in `[0, progressWeight]` exactly for engine
signals within `[0, 1]` (for which the bound is proved here), and only the
overall reported progress is capped, at 100. -/
theorem contribution_in_range (p : ℚ) (total : ℕ) (h0 : 0 ≤ p) (h1 : p ≤ 1) :
    (0 ≤ qualityContribution p total ∧
      qualityContribution p total ≤ progressRange total) ∧
    ∀ cs : List ℚ, overallProgress cs ≤ 100 := by
  have hrange : 0 ≤ progressRange total := by
    unfold progressRange
    positivity
  refine ⟨⟨mul_nonneg h0 hrange, ?_⟩, fun cs => min_le_right _ _⟩
  calc qualityContribution p total = p * progressRange total := rfl
    _ ≤ 1 * progressRange total := mul_le_mul_of_nonneg_right h1 hrange
    _ = progressRange total := one_mul _

/-- Witness for the amended C8 at `p = 1/2` with 2 jobs. -/
theorem contribution_in_range_witness :
    (0 ≤ qualityContribution (1/2) 2 ∧
      qualityContribution (1/2) 2 ≤ progressRange 2) ∧
    ∀ cs : List ℚ, overallProgress cs ≤ 100 :=
  contribution_in_range (1/2) 2 (by norm_num) (by norm_num)

/-! ## Claim C9 -/

/-- Claim C9 counterexample: a job for level "360p" whose engine invocation
fails leaves its own input entry `input_360p.mp4` in the engine namespace —
cleanup does not run on the failure path, contradicting the claim that a
failed engine invocation still triggers cleanup. -/
theorem cleanup_skipped_on_failure_counterexample :
    processQualityFS "360p" true ["segment_360p_000.ts"] [] =
      (["input_360p.mp4"], false) ∧
    "input_360p.mp4" ∈ (processQualityFS "360p" true ["segment_360p_000.ts"] []).1 := by
  constructor
  · rfl
  · decide

/-- Claim C9, amended: the job deletes its own input, output, and segment
entries after its buffers are read on the **success** path only (restoring
the namespace to its pre-job state when its entries are fresh); on a failed
engine invocation the job rejects before cleanup and its input entry remains
in the namespace. -/
theorem cleanup_only_on_success (levelName : String) (segs fs : List String)
    (hin : inputNameOf levelName ∉ fs)
    (hout : outputNameOf (qualitySlug levelName) ∉ fs)
    (hsegs : ∀ s ∈ segs, s ∉ fs) :
    processQualityFS levelName false segs fs = (fs, true) ∧
    processQualityFS levelName true segs fs =
      (fs ++ [inputNameOf levelName], false) := by
  constructor
  · unfold processQualityFS
    simp only [if_neg Bool.false_ne_true]
    rw [writeFold]
    have e1 : deleteEntry ((writeEntry (writeEntry fs (inputNameOf levelName))
          (outputNameOf (qualitySlug levelName))) ++ segs) (inputNameOf levelName) =
        fs ++ ([outputNameOf (qualitySlug levelName)] ++ segs) := by
      simp only [writeEntry, deleteEntry, List.append_assoc]
      rw [List.erase_append_right _ hin, List.singleton_append,
        List.erase_cons_head]
    rw [e1]
    have e2 : deleteEntry (fs ++ ([outputNameOf (qualitySlug levelName)] ++ segs))
        (outputNameOf (qualitySlug levelName)) = fs ++ segs := by
      simp only [deleteEntry]
      rw [List.erase_append_right _ hout, List.singleton_append,
        List.erase_cons_head]
    rw [e2]
    rw [deleteFold segs fs hsegs]
  · rfl

/-- Witness for the amended C9: a "360p" job over an empty namespace, on both
the success path and the failure path. -/
theorem cleanup_only_on_success_witness :
    processQualityFS "360p" false ["segment_360p_000.ts"] [] = ([], true) ∧
    processQualityFS "360p" true ["segment_360p_000.ts"] [] =
      ([] ++ [inputNameOf "360p"], false) :=
  cleanup_only_on_success "360p" ["segment_360p_000.ts"] []
    (by simp) (by simp) (by simp)

/-! ## Claim C10 -/

/-- Claim C10 counterexample: `zeroWidthLevel` *specifies both* width (as 0)
and height (as 100), yet its stream-info entry carries bandwidth and quoted
name but **no** `RESOLUTION` attribute, because the source guards the
attribute with JavaScript truthiness (`level.width && level.height`). -/
theorem resolution_attribute_counterexample :
    streamInfoLine zeroWidthLevel =
      "#EXT-X-STREAM-INF:BANDWIDTH=129000,NAME=\"x\"" ∧
    streamInfoLine zeroWidthLevel ≠
      "#EXT-X-STREAM-INF:BANDWIDTH=129000,RESOLUTION=0x100,NAME=\"x\"" := by
  constructor
  · rfl
  · decide

/-- Claim C10, amended: a stream-info entry carries a `RESOLUTION` attribute
exactly when both width and height are given **and nonzero** (truthy); when
either is absent or zero the entry is exactly the bandwidth plus the quoted
name, with no `RESOLUTION` attribute. -/
theorem resolution_attribute_iff_truthy_dims :
    (∀ (l : QualityLevel) (w h : ℕ), l.width = some w → w ≠ 0 →
      l.height = some h → h ≠ 0 →
      streamInfoLine l = "#EXT-X-STREAM-INF:BANDWIDTH=" ++ Nat.repr (bandwidthOf l)
        ++ ",RESOLUTION=" ++ Nat.repr w ++ "x" ++ Nat.repr h
        ++ ",NAME=\"" ++ l.name ++ "\"") ∧
    (∀ l : QualityLevel, truthy l.width = false ∨ truthy l.height = false →
      streamInfoLine l = "#EXT-X-STREAM-INF:BANDWIDTH=" ++ Nat.repr (bandwidthOf l)
        ++ ",NAME=\"" ++ l.name ++ "\"") ∧
    (∀ o : Option ℕ, truthy o = false ↔ o = none ∨ o = some 0) := by
  refine ⟨?_, ?_, ?_⟩
  · intro l w h hw hwnz hh hhnz
    have hwt : truthy (some w) = true := by simp [truthy, hwnz]
    have hht : truthy (some h) = true := by simp [truthy, hhnz]
    simp only [streamInfoLine, hw, hh, hwt, hht, Bool.and_self, if_true,
      Option.getD_some]
  · intro l hfalse
    rcases hfalse with hf | hf <;>
      simp only [streamInfoLine, hf, Bool.false_and, Bool.and_false,
        Bool.false_eq_true, if_false]
  · intro o
    cases o with
    | none => simp [truthy]
    | some v =>
        by_cases hz : v = 0 <;> simp [truthy, hz]

/-- Witness for C10: both amended cases at concrete levels (`preset360p`
with truthy dimensions, `noResLevel` with its width absent). -/
theorem resolution_attribute_iff_truthy_dims_witness :
    streamInfoLine preset360p = "#EXT-X-STREAM-INF:BANDWIDTH="
        ++ Nat.repr (bandwidthOf preset360p) ++ ",RESOLUTION=" ++ Nat.repr 640
        ++ "x" ++ Nat.repr 360 ++ ",NAME=\"" ++ preset360p.name ++ "\"" ∧
    streamInfoLine noResLevel = "#EXT-X-STREAM-INF:BANDWIDTH="
        ++ Nat.repr (bandwidthOf noResLevel) ++ ",NAME=\"" ++ noResLevel.name
        ++ "\"" :=
  ⟨resolution_attribute_iff_truthy_dims.1 preset360p 640 360 rfl (by decide)
      rfl (by decide),
   resolution_attribute_iff_truthy_dims.2.1 noResLevel (Or.inl rfl)⟩

end ResizeVideo
